import Mathlib

/-!
Shallow embedding of the amortization engine of `src/app/main.py`
(repository `greystone-loan-amoritization-project`).

Python `Decimal` values are modelled as exact rationals (`ℚ`); the
cent-rounding helper `_to_cents` (quantize to two decimals with
`ROUND_HALF_UP`, i.e. ties away from zero) is modelled explicitly.
Python loops become structural recursion; the two HTTP endpoints that
reach the engine are modelled as `Except`-valued functions whose error
cases mirror the `HTTPException` raises.
-/

namespace LoanAmori

/-- Rounding of a rational to the nearest integer, ties away from zero.
This is the integer core of Python `Decimal.quantize(..., ROUND_HALF_UP)`. -/
def rnd_half_up (x : ℚ) : ℤ :=
  if 0 ≤ x then ⌊x + 1 / 2⌋ else -⌊-x + 1 / 2⌋

/-- Model of `_to_cents` (src/app/main.py line 37): round to two decimal
digits using ROUND_HALF_UP. -/
def to_cents (x : ℚ) : ℚ := (rnd_half_up (100 * x) : ℚ) / 100

/-- Model of the intermediate `one_plus_r_pow_n` of
`_compute_monthly_payment` (src/app/main.py line 51). -/
def one_plus_r_pow_n (monthly_rate : ℚ) (term_months : ℕ) : ℚ :=
  (1 + monthly_rate) ^ term_months

/-- Model of `_compute_monthly_payment` (src/app/main.py lines 42-53). -/
def compute_monthly_payment (principal monthly_rate : ℚ) (term_months : ℕ) : ℚ :=
  if monthly_rate = 0 then
    to_cents (principal / (term_months : ℚ))
  else
    to_cents (principal * (monthly_rate * one_plus_r_pow_n monthly_rate term_months) /
      (one_plus_r_pow_n monthly_rate term_months - 1))

/-- The state accumulated by the loop of `_amortization_state_at_month`:
remaining balance, total principal paid, total interest paid. -/
structure AmortState where
  remaining : ℚ
  total_principal_paid : ℚ
  total_interest_paid : ℚ
  deriving Repr, DecidableEq

/-- One iteration of the loop body of `_amortization_state_at_month`
(src/app/main.py lines 75-92), for loop index `i` in `1..month`. -/
def amort_step (monthly_rate monthly_payment : ℚ) (term_months i : ℕ)
    (s : AmortState) : AmortState :=
  let interest : ℚ := if monthly_rate = 0 then 0 else to_cents (s.remaining * monthly_rate)
  let principal_payment : ℚ := monthly_payment - interest
  -- final-period reconciliation (lines 83-85)
  let principal_payment : ℚ := if i = term_months then s.remaining else principal_payment
  let interest : ℚ := if i = term_months then monthly_payment - s.remaining else interest
  -- clamp (lines 87-88)
  let principal_payment : ℚ :=
    if principal_payment > s.remaining then s.remaining else principal_payment
  { remaining := s.remaining - principal_payment
    total_principal_paid := s.total_principal_paid + principal_payment
    total_interest_paid := s.total_interest_paid + interest }

/-- The loop of `_amortization_state_at_month` run for `m` iterations
(loop index `i` running `1, 2, ..., m`), from the initial state. -/
def amort_replay (principal monthly_rate : ℚ) (term_months : ℕ) : ℕ → AmortState
  | 0 => ⟨principal, 0, 0⟩
  | m + 1 =>
      amort_step monthly_rate (compute_monthly_payment principal monthly_rate term_months)
        term_months (m + 1) (amort_replay principal monthly_rate term_months m)

/-- Model of `_amortization_state_at_month` (src/app/main.py lines 56-94).
The requested `month` is an integer: `month <= 0` short-circuits to the
initial state (lines 72-73), otherwise the loop runs `month` times. -/
def amortization_state_at_month (principal monthly_rate : ℚ) (term_months : ℕ)
    (month : ℤ) : AmortState :=
  if month ≤ 0 then ⟨principal, 0, 0⟩
  else amort_replay principal monthly_rate term_months month.toNat

/-- Model of `current_principal_balance_at_month` (src/app/main.py lines 97-102). -/
def current_principal_balance_at_month (principal monthly_rate : ℚ) (term_months : ℕ)
    (month : ℤ) : ℚ :=
  to_cents (amortization_state_at_month principal monthly_rate term_months month).remaining

/-- Model of `total_principal_paid_at_month` (src/app/main.py lines 105-110). -/
def total_principal_paid_at_month (principal monthly_rate : ℚ) (term_months : ℕ)
    (month : ℤ) : ℚ :=
  to_cents (amortization_state_at_month principal monthly_rate term_months month).total_principal_paid

/-- Model of `total_interest_paid_at_month` (src/app/main.py lines 113-118). -/
def total_interest_paid_at_month (principal monthly_rate : ℚ) (term_months : ℕ)
    (month : ℤ) : ℚ :=
  to_cents (amortization_state_at_month principal monthly_rate term_months month).total_interest_paid

/-- Model of the schema `LoanScheduleItem` (src/app/schemas.py): one row of
the amortization schedule. Monetary fields are kept as the exact `Decimal`
values computed by the endpoint before the `float(...)` serialization. -/
structure LoanScheduleItem where
  month : ℕ
  remaining_balance : ℚ
  monthly_payment : ℚ
  deriving Repr, DecidableEq

/-- Model of the schema `LoanSummary` (src/app/schemas.py). -/
structure LoanSummary where
  current_principal_balance : ℚ
  total_principal_paid : ℚ
  total_interest_paid : ℚ
  deriving Repr, DecidableEq

/-- One iteration of the schedule loop body of `get_loan_schedule`
(src/app/main.py lines 282-290), returning the updated `remaining`. -/
def schedule_step (monthly_rate monthly_payment : ℚ) (term_months i : ℕ)
    (remaining : ℚ) : ℚ :=
  let interest : ℚ := if monthly_rate = 0 then 0 else to_cents (remaining * monthly_rate)
  let principal_payment : ℚ := monthly_payment - interest
  let principal_payment : ℚ := if i = term_months then remaining else principal_payment
  let principal_payment : ℚ :=
    if principal_payment > remaining then remaining else principal_payment
  remaining - principal_payment

/-- The `remaining` variable of the schedule loop of `get_loan_schedule`
after `m` iterations, starting from `remaining = P` (src/app/main.py
lines 280-290). -/
def schedule_remaining (principal monthly_rate monthly_payment : ℚ)
    (term_months : ℕ) : ℕ → ℚ
  | 0 => principal
  | m + 1 =>
      schedule_step monthly_rate monthly_payment term_months (m + 1)
        (schedule_remaining principal monthly_rate monthly_payment term_months m)

/-- The list built by the schedule loop of `get_loan_schedule`
(src/app/main.py lines 279-298): for `i = 1..n` it appends
`⟨i, to_cents remaining_i, monthly_payment⟩` where `remaining_i` is the
loop variable after `i` iterations. -/
def loan_schedule_list (principal monthly_rate : ℚ) (term_months : ℕ) :
    List LoanScheduleItem :=
  (List.range term_months).map fun j =>
    ⟨j + 1,
     to_cents (schedule_remaining principal monthly_rate
       (compute_monthly_payment principal monthly_rate term_months) term_months (j + 1)),
     compute_monthly_payment principal monthly_rate term_months⟩

/-- The engine-level error taxonomy of the two computation endpoints:
`InvalidTerm` models the `HTTPException(400, "Loan term must be positive")`
raise, `MonthOutOfRange` the `HTTPException(400, "month must be between 0
and n")` raise. -/
inductive LoanError where
  | invalidTerm
  | monthOutOfRange
  deriving Repr, DecidableEq

/-- Model of the monthly-rate derivation used by both endpoints
(src/app/main.py lines 268 and 322): `annual / 100 / 12`. -/
def monthly_rate_of_annual (annual_interest_rate : ℚ) : ℚ :=
  annual_interest_rate / 100 / 12

/-- Model of the computational part of the `get_loan_schedule` endpoint
(src/app/main.py lines 253-301), after the loan has been fetched: validate
the term, then run the schedule loop. The loan's stored term is an
arbitrary integer. -/
def get_loan_schedule (amount annual_interest_rate : ℚ) (loan_term_in_months : ℤ) :
    Except LoanError (List LoanScheduleItem) :=
  if loan_term_in_months ≤ 0 then .error .invalidTerm
  else
    .ok (loan_schedule_list amount (monthly_rate_of_annual annual_interest_rate)
      loan_term_in_months.toNat)

/-- Model of the computational part of the `get_loan_summary` endpoint
(src/app/main.py lines 304-340), after the loan has been fetched: validate
the term, then the month range, then replay the amortization. -/
def get_loan_summary (amount annual_interest_rate : ℚ) (loan_term_in_months : ℤ)
    (month : ℤ) : Except LoanError LoanSummary :=
  if loan_term_in_months ≤ 0 then .error .invalidTerm
  else if month < 0 ∨ month > loan_term_in_months then .error .monthOutOfRange
  else
    let r := monthly_rate_of_annual annual_interest_rate
    let n := loan_term_in_months.toNat
    .ok ⟨current_principal_balance_at_month amount r n month,
         total_principal_paid_at_month amount r n month,
         total_interest_paid_at_month amount r n month⟩

/-- A rational is a whole number of cents. Every value the engine realizes
for a period is of this form. -/
def IsCents (x : ℚ) : Prop := ∃ k : ℤ, x = (k : ℚ) / 100

/-! Basic properties of the rounding helper. -/

theorem rnd_half_up_mono {x y : ℚ} (h : x ≤ y) : rnd_half_up x ≤ rnd_half_up y := by
  unfold rnd_half_up
  by_cases hx : 0 ≤ x
  · rw [if_pos hx, if_pos (le_trans hx h)]
    exact Int.floor_le_floor (by linarith)
  · rw [if_neg hx]
    by_cases hy : 0 ≤ y
    · rw [if_pos hy]
      have h1 : (0 : ℤ) ≤ ⌊y + 1 / 2⌋ := Int.floor_nonneg.mpr (by linarith)
      have h2 : (0 : ℤ) ≤ ⌊-x + 1 / 2⌋ := by
        push_neg at hx
        exact Int.floor_nonneg.mpr (by linarith)
      omega
    · rw [if_neg hy]
      have h3 : ⌊-y + 1 / 2⌋ ≤ ⌊-x + 1 / 2⌋ := Int.floor_le_floor (by linarith)
      omega

theorem rnd_half_up_nonneg {x : ℚ} (h : 0 ≤ x) : 0 ≤ rnd_half_up x := by
  unfold rnd_half_up
  rw [if_pos h]
  exact Int.floor_nonneg.mpr (by linarith)

theorem to_cents_mono {x y : ℚ} (h : x ≤ y) : to_cents x ≤ to_cents y := by
  unfold to_cents
  have : rnd_half_up (100 * x) ≤ rnd_half_up (100 * y) := rnd_half_up_mono (by linarith)
  have : ((rnd_half_up (100 * x) : ℤ) : ℚ) ≤ ((rnd_half_up (100 * y) : ℤ) : ℚ) := by
    exact_mod_cast this
  linarith

theorem to_cents_nonneg {x : ℚ} (h : 0 ≤ x) : 0 ≤ to_cents x := by
  unfold to_cents
  have : (0 : ℤ) ≤ rnd_half_up (100 * x) := rnd_half_up_nonneg (by linarith)
  have : ((0 : ℤ) : ℚ) ≤ ((rnd_half_up (100 * x) : ℤ) : ℚ) := by exact_mod_cast this
  have h100 : (0 : ℚ) < 100 := by norm_num
  positivity

theorem to_cents_isCents (x : ℚ) : IsCents (to_cents x) := ⟨rnd_half_up (100 * x), rfl⟩

/-! Properties of the monthly payment. -/

theorem one_lt_one_plus_r_pow_n {r : ℚ} {n : ℕ} (hr : 0 < r) (hn : 1 ≤ n) :
    1 < one_plus_r_pow_n r n :=
  one_lt_pow₀ (by linarith) (by omega)

theorem compute_monthly_payment_nonneg {P r : ℚ} {n : ℕ}
    (hP : 0 ≤ P) (hr : 0 ≤ r) (hn : 1 ≤ n) :
    0 ≤ compute_monthly_payment P r n := by
  unfold compute_monthly_payment
  by_cases h : r = 0
  · rw [if_pos h]
    exact to_cents_nonneg (div_nonneg hP (by positivity))
  · rw [if_neg h]
    have hr0 : 0 < r := lt_of_le_of_ne hr (Ne.symm h)
    have hq : 1 < one_plus_r_pow_n r n := one_lt_one_plus_r_pow_n hr0 hn
    apply to_cents_nonneg
    apply div_nonneg
    · have : 0 ≤ one_plus_r_pow_n r n := by linarith
      positivity
    · linarith

/-- The raw payment numerator dominates `P * r`: the annuity factor
`q / (q - 1)` is at least one. -/
theorem raw_payment_ge {P r : ℚ} {n : ℕ} (hP : 0 ≤ P) (hr : 0 < r) (hn : 1 ≤ n) :
    P * r ≤ P * (r * one_plus_r_pow_n r n) / (one_plus_r_pow_n r n - 1) := by
  have hq : 1 < one_plus_r_pow_n r n := one_lt_one_plus_r_pow_n hr hn
  have hq1 : 0 < one_plus_r_pow_n r n - 1 := by linarith
  rw [le_div_iff₀ hq1]
  have hPr : 0 ≤ P * r := mul_nonneg hP (le_of_lt hr)
  nlinarith

/-- The per-period interest (computed on any balance between `0` and `P`)
never exceeds the fixed monthly payment. -/
theorem interest_le_payment {P r rem : ℚ} {n : ℕ}
    (hP : 0 ≤ P) (hr : 0 ≤ r) (hn : 1 ≤ n) (h1 : rem ≤ P) :
    (if r = 0 then (0 : ℚ) else to_cents (rem * r)) ≤ compute_monthly_payment P r n := by
  by_cases h : r = 0
  · rw [if_pos h]
    exact compute_monthly_payment_nonneg hP hr hn
  · rw [if_neg h]
    have hr0 : 0 < r := lt_of_le_of_ne hr (Ne.symm h)
    unfold compute_monthly_payment
    rw [if_neg h]
    apply to_cents_mono
    calc rem * r ≤ P * r := mul_le_mul_of_nonneg_right h1 hr
      _ ≤ P * (r * one_plus_r_pow_n r n) / (one_plus_r_pow_n r n - 1) :=
          raw_payment_ge hP hr0 hn

/-! Conservation of principal in the replay loop. -/

/-- Whatever the per-period split does, every cent subtracted from
`remaining` is added to `total_principal_paid`. -/
theorem amort_replay_conservation (P r : ℚ) (n : ℕ) : ∀ m : ℕ,
    (amort_replay P r n m).total_principal_paid + (amort_replay P r n m).remaining = P := by
  intro m
  induction m with
  | zero => simp [amort_replay]
  | succ m ih =>
      simp only [amort_replay, amort_step]
      ring_nf
      ring_nf at ih
      linarith

/-- The `remaining` components of `amort_step` and `schedule_step` coincide:
the two loops of `_amortization_state_at_month` and `get_loan_schedule`
update the balance identically. -/
theorem amort_step_remaining (r pay : ℚ) (n i : ℕ) (s : AmortState) :
    (amort_step r pay n i s).remaining = schedule_step r pay n i s.remaining := rfl

/-- The loop variable of the schedule loop equals the `remaining` component
of the replay loop at every iteration count. -/
theorem schedule_remaining_eq_replay (P r : ℚ) (n : ℕ) : ∀ m : ℕ,
    schedule_remaining P r (compute_monthly_payment P r n) n m =
      (amort_replay P r n m).remaining := by
  intro m
  induction m with
  | zero => rfl
  | succ m ih =>
      show schedule_step _ _ _ _ _ = (amort_step _ _ _ _ _).remaining
      rw [amort_step_remaining, ih]

/-! Bounds on the per-period balance update. -/

/-- One iteration of the loop neither makes the balance negative nor
increases it, as long as the incoming balance lies in `[0, P]`. -/
theorem schedule_step_bounds {P r rem : ℚ} {n : ℕ} (i : ℕ)
    (hP : 0 ≤ P) (hr : 0 ≤ r) (hn : 1 ≤ n) (h0 : 0 ≤ rem) (h1 : rem ≤ P) :
    0 ≤ schedule_step r (compute_monthly_payment P r n) n i rem ∧
      schedule_step r (compute_monthly_payment P r n) n i rem ≤ rem := by
  have hile := @interest_le_payment P r rem n hP hr hn h1
  simp only [schedule_step]
  constructor <;> (split_ifs at hile ⊢ <;> linarith)

/-- The balance of the loop stays within `[0, P]` for any number of
iterations. -/
theorem schedule_remaining_bounds {P r : ℚ} {n : ℕ}
    (hP : 0 ≤ P) (hr : 0 ≤ r) (hn : 1 ≤ n) : ∀ m : ℕ,
    0 ≤ schedule_remaining P r (compute_monthly_payment P r n) n m ∧
      schedule_remaining P r (compute_monthly_payment P r n) n m ≤ P := by
  intro m
  induction m with
  | zero => exact ⟨hP, le_refl P⟩
  | succ m ih =>
      obtain ⟨ih0, ih1⟩ := ih
      obtain ⟨hs0, hs1⟩ := schedule_step_bounds (m + 1) hP hr hn ih0 ih1
      exact ⟨hs0, le_trans hs1 ih1⟩

/-- Consecutive balances of the loop are non-increasing. -/
theorem schedule_remaining_antitone {P r : ℚ} {n : ℕ}
    (hP : 0 ≤ P) (hr : 0 ≤ r) (hn : 1 ≤ n) (m : ℕ) :
    schedule_remaining P r (compute_monthly_payment P r n) n (m + 1) ≤
      schedule_remaining P r (compute_monthly_payment P r n) n m := by
  obtain ⟨h0, h1⟩ := schedule_remaining_bounds hP hr hn m
  exact (schedule_step_bounds (m + 1) hP hr hn h0 h1).2

/-! The final period clears the balance. -/

/-- Running the replay loop exactly `term_months` times leaves a zero
balance: the final-period reconciliation forces the last principal
portion to equal the incoming balance. -/
theorem amort_replay_final_remaining (P r : ℚ) {n : ℕ} (hn : 1 ≤ n) :
    (amort_replay P r n n).remaining = 0 := by
  obtain ⟨m, rfl⟩ : ∃ m, n = m + 1 := ⟨n - 1, by omega⟩
  simp [amort_replay, amort_step]

/-- For a non-negative requested month the wrapper with the `month <= 0`
short-circuit agrees with the plain loop (at month `0` both give the
initial state). -/
theorem state_at_month_eq_replay (P r : ℚ) (n : ℕ) {k : ℤ} (hk : 0 ≤ k) :
    amortization_state_at_month P r n k = amort_replay P r n k.toNat := by
  unfold amortization_state_at_month
  split_ifs with h
  · have hk0 : k = 0 := le_antisymm h hk
    subst hk0
    rfl
  · rfl

/-! Zero-rate behaviour of the replay loop. -/

/-- With a zero rate, every period strictly before the final one records
zero interest, so the accumulated interest stays zero. -/
theorem amort_replay_zero_rate_interest (P : ℚ) (n : ℕ) : ∀ m : ℕ, m < n →
    (amort_replay P 0 n m).total_interest_paid = 0 := by
  intro m
  induction m with
  | zero => intro _; rfl
  | succ m ih =>
      intro hm
      have hne : m + 1 ≠ n := by omega
      simp only [amort_replay, amort_step]
      simp [hne, ih (by omega)]

/-- With a zero rate, the whole-loan interest is exactly the final-period
back-computed interest `payment - remaining(n-1)`: the reconciliation puts
the rounding residual into interest. -/
theorem amort_replay_zero_rate_final_interest (P : ℚ) {n : ℕ} (hn : 1 ≤ n) :
    (amort_replay P 0 n n).total_interest_paid =
      compute_monthly_payment P 0 n - (amort_replay P 0 n (n - 1)).remaining := by
  obtain ⟨m, rfl⟩ : ∃ m, n = m + 1 := ⟨n - 1, by omega⟩
  have h0 : (amort_replay P 0 (m + 1) m).total_interest_paid = 0 :=
    amort_replay_zero_rate_interest P (m + 1) m (by omega)
  simp only [amort_replay, amort_step]
  simp [h0]

/-- The schedule list has exactly `term_months` entries. -/
theorem loan_schedule_list_length (P r : ℚ) (n : ℕ) :
    (loan_schedule_list P r n).length = n := by
  simp [loan_schedule_list]

/-- Shape of the `j`-th schedule entry (0-based index `j`, month `j + 1`). -/
theorem loan_schedule_list_getElem (P r : ℚ) (n j : ℕ) {e : LoanScheduleItem}
    (he : (loan_schedule_list P r n)[j]? = some e) :
    j < n ∧
      e = ⟨j + 1,
        to_cents (schedule_remaining P r (compute_monthly_payment P r n) n (j + 1)),
        compute_monthly_payment P r n⟩ := by
  have hj : j < n := by
    by_contra hge
    have : (loan_schedule_list P r n)[j]? = none := by
      apply List.getElem?_eq_none
      rw [loan_schedule_list_length]
      omega
    rw [this] at he
    exact Option.noConfusion he
  refine ⟨hj, ?_⟩
  unfold loan_schedule_list at he
  rw [List.getElem?_map, List.getElem?_range hj] at he
  simp only [Option.map_some'] at he
  exact (Option.some_injective _ he).symm

/-! Claim theorems. -/

/-- C1: for every valid loan terms (principal ≥ 0, monthly_rate ≥ 0,
term_months ≥ 1) and every month `k` with `0 ≤ k ≤ term_months`, the state
returned by `_amortization_state_at_month` satisfies
`total_principal_paid + remaining_balance = principal` — here proved as an
exact rational identity, which in particular is exact to the cent. -/
theorem C1_principal_conservation (P r : ℚ) (n : ℕ) (k : ℤ)
    (_hP : 0 ≤ P) (_hr : 0 ≤ r) (_hn : 1 ≤ n) (hk0 : 0 ≤ k) (_hkn : k ≤ (n : ℤ)) :
    (amortization_state_at_month P r n k).total_principal_paid +
      (amortization_state_at_month P r n k).remaining = P := by
  rw [state_at_month_eq_replay P r n hk0]
  exact amort_replay_conservation P r n k.toNat

/-- Witness for C1 at principal 100, rate 0, term 2, month 1. -/
theorem C1_witness :
    (amortization_state_at_month 100 0 2 1).total_principal_paid +
      (amortization_state_at_month 100 0 2 1).remaining = 100 :=
  C1_principal_conservation 100 0 2 1 (by norm_num) (by norm_num) (by norm_num)
    (by norm_num) (by norm_num)

/-- C2: for every valid loan terms, replaying through month
`k = term_months` yields `remaining = 0` and `total_principal_paid =
principal` exactly: the final-period reconciliation clears the loan. -/
theorem C2_final_payoff (P r : ℚ) (n : ℕ)
    (_hP : 0 ≤ P) (_hr : 0 ≤ r) (hn : 1 ≤ n) :
    (amortization_state_at_month P r n (n : ℤ)).remaining = 0 ∧
      (amortization_state_at_month P r n (n : ℤ)).total_principal_paid = P := by
  rw [state_at_month_eq_replay P r n (by positivity)]
  have htn : ((n : ℤ)).toNat = n := Int.toNat_natCast n
  rw [htn]
  have h0 := amort_replay_final_remaining P r hn
  have h1 := amort_replay_conservation P r n n
  exact ⟨h0, by linarith⟩

/-- Witness for C2 at principal 100, rate 0, term 2. -/
theorem C2_witness :
    (amortization_state_at_month 100 0 2 (2 : ℤ)).remaining = 0 ∧
      (amortization_state_at_month 100 0 2 (2 : ℤ)).total_principal_paid = 100 :=
  C2_final_payoff 100 0 2 (by norm_num) (by norm_num) (by norm_num)

/-- C4: `_compute_monthly_payment` returns `round_cents(principal /
term_months)` at zero rate and `round_cents(principal * rate * (1+rate)^n /
((1+rate)^n - 1))` at positive rate, and its result is a whole number of
cents. (Determinism is definitional: the model is a pure function.) -/
theorem C4_payment_formula (P r : ℚ) (n : ℕ)
    (_hP : 0 ≤ P) (_hr : 0 ≤ r) (_hn : 1 ≤ n) :
    (r = 0 → compute_monthly_payment P r n = to_cents (P / (n : ℚ))) ∧
    (0 < r → compute_monthly_payment P r n =
      to_cents (P * r * (1 + r) ^ n / ((1 + r) ^ n - 1))) ∧
    IsCents (compute_monthly_payment P r n) := by
  refine ⟨fun h => by simp [compute_monthly_payment, h], fun h => ?_, ?_⟩
  · have hne : r ≠ 0 := ne_of_gt h
    simp only [compute_monthly_payment, if_neg hne, one_plus_r_pow_n, mul_assoc]
  · unfold compute_monthly_payment
    split_ifs <;> exact to_cents_isCents _

/-- Witness for C4 at principal 100, rate 0, term 2. -/
theorem C4_witness :
    ((0 : ℚ) = 0 → compute_monthly_payment 100 0 2 = to_cents (100 / (2 : ℚ))) ∧
    ((0 : ℚ) < 0 → compute_monthly_payment 100 0 2 =
      to_cents (100 * 0 * (1 + 0) ^ 2 / ((1 + 0) ^ 2 - 1))) ∧
    IsCents (compute_monthly_payment 100 0 2) :=
  C4_payment_formula 100 0 2 (by norm_num) (by norm_num) (by norm_num)

/-- C7: both endpoints fail with `InvalidTerm` exactly when
`term_months ≤ 0`; for a positive term this error is never produced. The
check is the first test in both endpoint models, before any amortization
arithmetic. -/
theorem C7_invalid_term (amount annual : ℚ) (n m : ℤ) :
    (get_loan_schedule amount annual n = .error .invalidTerm ↔ n ≤ 0) ∧
    (get_loan_summary amount annual n m = .error .invalidTerm ↔ n ≤ 0) := by
  constructor
  · unfold get_loan_schedule
    split_ifs with h <;> simp [h]
  · unfold get_loan_summary
    split_ifs with h h2 <;> simp [h]

/-- C8: with a positive term, the summary endpoint fails with
`MonthOutOfRange` exactly when the requested month is outside
`[0, term_months]`, and otherwise returns the cent-rounded replay state. -/
theorem C8_month_range (amount annual : ℚ) (n m : ℤ) (hn : 1 ≤ n) :
    (get_loan_summary amount annual n m = .error .monthOutOfRange ↔ (m < 0 ∨ m > n)) ∧
    (0 ≤ m → m ≤ n →
      get_loan_summary amount annual n m = .ok
        ⟨current_principal_balance_at_month amount (monthly_rate_of_annual annual) n.toNat m,
         total_principal_paid_at_month amount (monthly_rate_of_annual annual) n.toNat m,
         total_interest_paid_at_month amount (monthly_rate_of_annual annual) n.toNat m⟩) := by
  have h : ¬ n ≤ 0 := by omega
  unfold get_loan_summary
  rw [if_neg h]
  constructor
  · split_ifs with h2 <;> simp [h2]
  · intro hm0 hmn
    rw [if_neg (by omega : ¬(m < 0 ∨ m > n))]

/-- Witness for C8 at amount 100, annual rate 0, term 2, month 1. -/
theorem C8_witness :
    (get_loan_summary 100 0 2 1 = .error .monthOutOfRange ↔ ((1 : ℤ) < 0 ∨ (1 : ℤ) > 2)) ∧
    ((0 : ℤ) ≤ 1 → (1 : ℤ) ≤ 2 →
      get_loan_summary 100 0 2 1 = .ok
        ⟨current_principal_balance_at_month 100 (monthly_rate_of_annual 0) (2 : ℤ).toNat 1,
         total_principal_paid_at_month 100 (monthly_rate_of_annual 0) (2 : ℤ).toNat 1,
         total_interest_paid_at_month 100 (monthly_rate_of_annual 0) (2 : ℤ).toNat 1⟩) :=
  C8_month_range 100 0 2 1 (by norm_num)

/-- C9: under the precondition `term_months ≥ 1` and `monthly_rate ≥ 0`,
neither divisor of `_compute_monthly_payment` is zero: the zero-rate
branch divides by `term_months ≠ 0`, and the general branch's denominator
`one_plus_r_pow_n - 1` is strictly positive whenever the rate is nonzero. -/
theorem C9_no_division_by_zero (r : ℚ) (n : ℕ) (hr : 0 ≤ r) (hn : 1 ≤ n) :
    ((n : ℚ) ≠ 0) ∧ (r ≠ 0 → 0 < one_plus_r_pow_n r n - 1) := by
  refine ⟨Nat.cast_ne_zero.mpr (by omega), fun h => ?_⟩
  have := one_lt_one_plus_r_pow_n (lt_of_le_of_ne hr (Ne.symm h)) hn
  linarith

/-- Witness for C9 at rate 1, term 1. -/
theorem C9_witness :
    ((1 : ℚ) ≠ 0) ∧ ((1 : ℚ) ≠ 0 → 0 < one_plus_r_pow_n 1 1 - 1) :=
  C9_no_division_by_zero 1 1 (by norm_num) (by norm_num)

/-- C10: for any requested month `m ≤ 0` the engine returns the initial
state (remaining = principal, both totals zero) without entering the loop;
`_amortization_state_at_month` itself performs no month-range check, so
this holds for every non-positive `m`, not only `m = 0`. -/
theorem C10_nonpositive_month (P r : ℚ) (n : ℕ) (m : ℤ)
    (_hP : 0 ≤ P) (_hr : 0 ≤ r) (_hn : 1 ≤ n) (hm : m ≤ 0) :
    amortization_state_at_month P r n m = ⟨P, 0, 0⟩ := by
  unfold amortization_state_at_month
  rw [if_pos hm]

/-- Witness for C10 at principal 100, rate 0, term 2, month -5. -/
theorem C10_witness :
    amortization_state_at_month 100 0 2 (-5) = ⟨100, 0, 0⟩ :=
  C10_nonpositive_month 100 0 2 (-5) (by norm_num) (by norm_num) (by norm_num)
    (by norm_num)

/-- Counterexample to C3 as stated: for principal 100, rate 0, term 3, the
replayed state at month 3 reports total interest -0.01, not 0 — the
final-period reconciliation recomputes interest as `payment - remaining`
even at zero rate, so the cent residual of `100 / 3` lands in interest. -/
theorem C3_counterexample :
    (amortization_state_at_month 100 0 3 3).total_interest_paid = -1 / 100 ∧
      (amortization_state_at_month 100 0 3 3).total_interest_paid ≠ 0 := by
  have h : (amortization_state_at_month 100 0 3 3).total_interest_paid = -1 / 100 := by
    norm_num [amortization_state_at_month, amort_replay, amort_step,
      compute_monthly_payment, to_cents, rnd_half_up]
  exact ⟨h, by rw [h]; norm_num⟩

/-- C3 (amended): for a zero-rate loan the accumulated interest is 0 at
every month strictly before the term; at the final period the principal
portion is forced to the incoming balance (absorbing any cent residual of
`principal / term_months` into principal), and the interest is recomputed
as `payment - remaining`, so the whole-loan interest equals that final
back-computed amount rather than 0. -/
theorem C3_zero_rate_interest (P : ℚ) (n : ℕ) (k : ℤ)
    (_hP : 0 ≤ P) (hn : 1 ≤ n) (hk0 : 0 ≤ k) (hkn : k < (n : ℤ)) :
    (amortization_state_at_month P 0 n k).total_interest_paid = 0 ∧
    (amortization_state_at_month P 0 n (n : ℤ)).total_interest_paid =
      compute_monthly_payment P 0 n -
        (amortization_state_at_month P 0 n ((n : ℤ) - 1)).remaining ∧
    (amortization_state_at_month P 0 n (n : ℤ)).total_principal_paid -
      (amortization_state_at_month P 0 n ((n : ℤ) - 1)).total_principal_paid =
        (amortization_state_at_month P 0 n ((n : ℤ) - 1)).remaining := by
  rw [state_at_month_eq_replay P 0 n hk0, state_at_month_eq_replay P 0 n (by positivity),
    state_at_month_eq_replay P 0 n (by omega : (0 : ℤ) ≤ (n : ℤ) - 1)]
  have htn : ((n : ℤ)).toNat = n := Int.toNat_natCast n
  have htn1 : ((n : ℤ) - 1).toNat = n - 1 := by omega
  rw [htn, htn1]
  have hk : k.toNat < n := by omega
  refine ⟨amort_replay_zero_rate_interest P n k.toNat hk, ?_, ?_⟩
  · exact amort_replay_zero_rate_final_interest P hn
  · have hc := amort_replay_conservation P 0 n n
    have hc1 := amort_replay_conservation P 0 n (n - 1)
    have h0 := amort_replay_final_remaining P 0 hn
    linarith

/-- Witness for the amended C3 at principal 100, term 3, month 1. -/
theorem C3_witness :
    (amortization_state_at_month 100 0 3 1).total_interest_paid = 0 ∧
    (amortization_state_at_month 100 0 3 (3 : ℤ)).total_interest_paid =
      compute_monthly_payment 100 0 3 -
        (amortization_state_at_month 100 0 3 ((3 : ℤ) - 1)).remaining ∧
    (amortization_state_at_month 100 0 3 (3 : ℤ)).total_principal_paid -
      (amortization_state_at_month 100 0 3 ((3 : ℤ) - 1)).total_principal_paid =
        (amortization_state_at_month 100 0 3 ((3 : ℤ) - 1)).remaining :=
  C3_zero_rate_interest 100 3 1 (by norm_num) (by norm_num) (by norm_num) (by norm_num)

/-- Counterexample to C5 as stated: for principal 0.006 (= 3/500), rate 0,
term 2, the first schedule entry's balance is 0.01, which exceeds the
principal — rounding a sub-cent balance up crosses the raw principal. -/
theorem C5_counterexample :
    loan_schedule_list (3 / 500) 0 2 = [⟨1, 1 / 100, 0⟩, ⟨2, 0, 0⟩] ∧
      (3 : ℚ) / 500 < 1 / 100 := by
  have hr : List.range 2 = [0, 1] := rfl
  constructor
  · simp only [loan_schedule_list, hr, List.map]
    norm_num [schedule_remaining, schedule_step, compute_monthly_payment,
      to_cents, rnd_half_up, LoanScheduleItem.mk.injEq]
  · norm_num

/-- C5 (amended): consecutive schedule balances are non-increasing, and the
first balance never exceeds the cent-rounded principal
`round_cents(principal)` (which equals the principal whenever the principal
is a whole number of cents). -/
theorem C5_schedule_monotone (P r : ℚ) (n : ℕ)
    (hP : 0 ≤ P) (hr : 0 ≤ r) (hn : 1 ≤ n) :
    (∀ j : ℕ, ∀ a b : LoanScheduleItem,
      (loan_schedule_list P r n)[j]? = some a →
      (loan_schedule_list P r n)[j + 1]? = some b →
      b.remaining_balance ≤ a.remaining_balance) ∧
    (∀ a : LoanScheduleItem, (loan_schedule_list P r n)[0]? = some a →
      a.remaining_balance ≤ to_cents P) := by
  constructor
  · intro j a b ha hb
    obtain ⟨_, rfl⟩ := loan_schedule_list_getElem P r n j ha
    obtain ⟨_, rfl⟩ := loan_schedule_list_getElem P r n (j + 1) hb
    exact to_cents_mono (schedule_remaining_antitone hP hr hn (j + 1))
  · intro a ha
    obtain ⟨_, rfl⟩ := loan_schedule_list_getElem P r n 0 ha
    exact to_cents_mono (schedule_remaining_antitone hP hr hn 0)

/-- Witness for the amended C5 at principal 100, rate 0, term 2. -/
theorem C5_witness :
    (∀ j : ℕ, ∀ a b : LoanScheduleItem,
      (loan_schedule_list 100 0 2)[j]? = some a →
      (loan_schedule_list 100 0 2)[j + 1]? = some b →
      b.remaining_balance ≤ a.remaining_balance) ∧
    (∀ a : LoanScheduleItem, (loan_schedule_list 100 0 2)[0]? = some a →
      a.remaining_balance ≤ to_cents 100) :=
  C5_schedule_monotone 100 0 2 (by norm_num) (by norm_num) (by norm_num)

/-- C6: the schedule has exactly `term_months` entries; entry `j` (0-based)
carries month `j + 1`, the constant monthly payment, and a balance equal to
the cent-rounded balance the replay computation reports after `j + 1`
payments — the two loops implement the same per-period logic. -/
theorem C6_schedule_refines_replay (P r : ℚ) (n : ℕ)
    (_hP : 0 ≤ P) (_hr : 0 ≤ r) (_hn : 1 ≤ n) :
    (loan_schedule_list P r n).length = n ∧
    (∀ j : ℕ, ∀ e : LoanScheduleItem, (loan_schedule_list P r n)[j]? = some e →
      e.month = j + 1 ∧
      e.monthly_payment = compute_monthly_payment P r n ∧
      e.remaining_balance = current_principal_balance_at_month P r n ((j : ℤ) + 1)) := by
  refine ⟨loan_schedule_list_length P r n, ?_⟩
  intro j e he
  obtain ⟨_, rfl⟩ := loan_schedule_list_getElem P r n j he
  refine ⟨rfl, rfl, ?_⟩
  unfold current_principal_balance_at_month
  rw [state_at_month_eq_replay P r n (by positivity)]
  have htj : ((j : ℤ) + 1).toNat = j + 1 := by omega
  rw [htj, schedule_remaining_eq_replay]

/-- Witness for C6 at principal 100, rate 0, term 2. -/
theorem C6_witness :
    (loan_schedule_list 100 0 2).length = 2 ∧
    (∀ j : ℕ, ∀ e : LoanScheduleItem, (loan_schedule_list 100 0 2)[j]? = some e →
      e.month = j + 1 ∧
      e.monthly_payment = compute_monthly_payment 100 0 2 ∧
      e.remaining_balance = current_principal_balance_at_month 100 0 2 ((j : ℤ) + 1)) :=
  C6_schedule_refines_replay 100 0 2 (by norm_num) (by norm_num) (by norm_num)

end LoanAmori
